import Mathlib

/-!
Verification of the wassistant webhook server (src/server.js).

The development shallowly embeds the inbound-webhook normalization and
audio-transcription pipeline of the server: the Telephony (Twilio) POST
handler with its field extraction, media classification, download,
transcription and TwiML composition, and the CloudMessaging (WhatsApp)
POST handler with its event fan-out.  Remote effects (the HTTP fetch of
the media and the transcription backend call) are modelled as explicit
outcome parameters, so every handler is a total function from the
request payload and the outcome of each remote call to the composed
HTTP response together with observable facts about the transient file.
-/

/-! ## Generic list and string helpers -/

/-- Boolean prefix test on character lists, recursing on the pattern. -/
def isPre : List Char → List Char → Bool
  | [], _ => true
  | a :: as, l =>
    match l with
    | [] => false
    | b :: bs => (a == b) && isPre as bs

/-- Split a character list at the first occurrence of `pat`, returning the
part strictly before the match and the part strictly after it. -/
def splitFirst (pat : List Char) : List Char → Option (List Char × List Char)
  | [] => if pat = [] then some ([], []) else none
  | c :: rest =>
    if isPre pat (c :: rest) then some ([], (c :: rest).drop pat.length)
    else
      match splitFirst pat rest with
      | some (pre, post) => some (c :: pre, post)
      | none => none
termination_by structural l => l

/-- Substring containment on character lists (the semantics of the
JavaScript `String.prototype.includes`). -/
def containsL (pat l : List Char) : Bool := (splitFirst pat l).isSome

/-- JavaScript `url.includes(pat)` on Lean strings. -/
def strContains (pat s : String) : Bool := containsL pat.data s.data

/-- JavaScript `s.startsWith(pat)` on Lean strings. -/
def strStarts (pat s : String) : Bool := isPre pat.data s.data

/-- Split a character list on a separator character. -/
def splitOnChar (sep : Char) : List Char → List (List Char)
  | [] => [[]]
  | c :: rest =>
    if c = sep then [] :: splitOnChar sep rest
    else
      match splitOnChar sep rest with
      | [] => [[c]]
      | g :: gs => (c :: g) :: gs

/-- Hexadecimal digit value of a character, if any. -/
def hexVal (c : Char) : Option Nat :=
  if 48 ≤ c.toNat ∧ c.toNat ≤ 57 then some (c.toNat - 48)
  else if 65 ≤ c.toNat ∧ c.toNat ≤ 70 then some (c.toNat - 55)
  else if 97 ≤ c.toNat ∧ c.toNat ≤ 102 then some (c.toNat - 87)
  else none

/-! ## XML escaping (src/server.js lines 356-363 and 415-422)

The source defines `escapeXml` twice, once on the success path and once in
the catch handler, with the identical five sequential global replacements
`&`, `<`, `>`, `"`, `'`, in that order.  A global single-character
`String.prototype.replace` is per-character expansion. -/

/-- The apostrophe character, code point 39. -/
def aposChar : Char := Char.ofNat 39

/-- Replace every occurrence of the character `c` by the expansion `rep`
(the semantics of a global single-character regex replace). -/
def replChar (c : Char) (rep : List Char) : List Char → List Char
  | [] => []
  | d :: ds => (if d = c then rep else [d]) ++ replChar c rep ds

/-- The source `escapeXml`: five sequential global replacements, applied
in the order `&`, `<`, `>`, `"`, apostrophe (innermost first). -/
def escapeXml (s : List Char) : List Char :=
  replChar aposChar ['&', 'a', 'p', 'o', 's', ';']
    (replChar '"' ['&', 'q', 'u', 'o', 't', ';']
      (replChar '>' ['&', 'g', 't', ';']
        (replChar '<' ['&', 'l', 't', ';']
          (replChar '&' ['&', 'a', 'm', 'p', ';'] s))))

/-- String-level wrapper of `escapeXml`. -/
def escX (s : String) : String := String.mk (escapeXml s.data)

/-- Per-character expansion that the composition of the five replacement
passes performs. -/
def escChar (c : Char) : List Char :=
  if c = '&' then ['&', 'a', 'm', 'p', ';']
  else if c = '<' then ['&', 'l', 't', ';']
  else if c = '>' then ['&', 'g', 't', ';']
  else if c = '"' then ['&', 'q', 'u', 'o', 't', ';']
  else if c = aposChar then ['&', 'a', 'p', 'o', 's', ';']
  else [c]

/-- Per-character joined expansion. -/
def joinMap (f : Char → List Char) : List Char → List Char
  | [] => []
  | c :: cs => f c ++ joinMap f cs

theorem replChar_append (c : Char) (rep : List Char) (a b : List Char) :
    replChar c rep (a ++ b) = replChar c rep a ++ replChar c rep b := by
  induction a with
  | nil => rfl
  | cons d ds ih => simp [replChar, ih]

theorem escapeXml_append (a b : List Char) :
    escapeXml (a ++ b) = escapeXml a ++ escapeXml b := by
  simp [escapeXml, replChar_append]

theorem escapeXml_eq_joinMap (s : List Char) :
    escapeXml s = joinMap escChar s := by
  induction s with
  | nil => rfl
  | cons c cs ih =>
    have hc : escapeXml [c] = escChar c := by
      by_cases h1 : c = '&'
      · subst h1; rfl
      · by_cases h2 : c = '<'
        · subst h2; rfl
        · by_cases h3 : c = '>'
          · subst h3; rfl
          · by_cases h4 : c = '"'
            · subst h4; rfl
            · by_cases h5 : c = aposChar
              · subst h5; rfl
              · simp [escapeXml, replChar, escChar, h1, h2, h3, h4, h5]
    calc escapeXml (c :: cs) = escapeXml ([c] ++ cs) := rfl
      _ = escapeXml [c] ++ escapeXml cs := escapeXml_append [c] cs
      _ = escChar c ++ joinMap escChar cs := by rw [hc, ih]
      _ = joinMap escChar (c :: cs) := rfl

/-- Escaped text never contains a raw left angle bracket. -/
theorem escapeXml_no_lt (s : List Char) : '<' ∉ escapeXml s := by
  rw [escapeXml_eq_joinMap]
  induction s with
  | nil => simp [joinMap]
  | cons c cs ih =>
    simp only [joinMap, List.mem_append]
    intro h
    rcases h with h | h
    · revert h
      by_cases h1 : c = '&' <;> by_cases h2 : c = '<' <;> by_cases h3 : c = '>' <;>
        by_cases h4 : c = '"' <;> by_cases h5 : c = aposChar <;>
        simp_all [escChar, eq_comm]
    · exact ih h

/-! ## XML entity decoding and the Message element of a TwiML body

The spec phrases the round-trip as reparsing the Message element of the
composed envelope as XML.  `unescapeXml` is the XML entity decode of the
five entities produced by `escapeXml`, and `messageContent` extracts the
text between the first Message start tag and the following Message end
tag. -/

/-- Decode the five XML character entities; characters not starting a
recognized entity are kept verbatim. -/
def unescapeXml : List Char → List Char
  | [] => []
  | '&' :: 'a' :: 'm' :: 'p' :: ';' :: r => '&' :: unescapeXml r
  | '&' :: 'l' :: 't' :: ';' :: r => '<' :: unescapeXml r
  | '&' :: 'g' :: 't' :: ';' :: r => '>' :: unescapeXml r
  | '&' :: 'q' :: 'u' :: 'o' :: 't' :: ';' :: r => '"' :: unescapeXml r
  | '&' :: 'a' :: 'p' :: 'o' :: 's' :: ';' :: r => aposChar :: unescapeXml r
  | c :: rest => c :: unescapeXml rest

set_option maxHeartbeats 1600000 in
theorem unescapeXml_cons_ne (c : Char) (t : List Char) (h : c ≠ '&') :
    unescapeXml (c :: t) = c :: unescapeXml t := by
  conv_lhs => rw [unescapeXml.eq_def]
  split <;> simp_all

theorem unescape_escChar (c : Char) (t : List Char) :
    unescapeXml (escChar c ++ t) = c :: unescapeXml t := by
  by_cases h1 : c = '&'
  · subst h1; rfl
  · by_cases h2 : c = '<'
    · subst h2; rfl
    · by_cases h3 : c = '>'
      · subst h3; rfl
      · by_cases h4 : c = '"'
        · subst h4; rfl
        · by_cases h5 : c = aposChar
          · subst h5; rfl
          · simp only [escChar, h1, h2, h3, h4, h5, if_false, List.cons_append,
              List.nil_append]
            exact unescapeXml_cons_ne c t h1

/-- Entity decoding inverts the escaping pass on every string. -/
theorem unescape_escape (s : List Char) : unescapeXml (escapeXml s) = s := by
  rw [escapeXml_eq_joinMap]
  induction s with
  | nil => rfl
  | cons c cs ih =>
    show unescapeXml (escChar c ++ joinMap escChar cs) = c :: cs
    rw [unescape_escChar, ih]

/-- Start tag of the TwiML Message element. -/
def msgOpenTag : List Char := "<Message>".data

/-- End tag of the TwiML Message element. -/
def msgCloseTag : List Char := "</Message>".data

/-- Extract the text of the Message element of an XML body: the characters
between the first Message start tag and the first Message end tag after
it. -/
def messageContent (s : String) : Option (List Char) :=
  match splitFirst msgOpenTag s.data with
  | some (_, post) =>
    match splitFirst msgCloseTag post with
    | some (content, _) => some content
    | none => none
  | none => none

/-- TwiML template of the source (lines 368-371 and 425-428): the XML
declaration and Response element around one Message element. -/
def twimlHead : String := "<?xml version=\"1.0\" encoding=\"UTF-8\"?>\n<Response>\n  <Message>"

/-- Closing part of the TwiML template. -/
def twimlTail : String := "</Message>\n</Response>"

/-- The TwiML envelope the source composes around an escaped message. -/
def twimlWith (m : String) : String := twimlHead ++ m ++ twimlTail

/-- The empty TwiML acknowledgment of the non-audio path (line 396). -/
def emptyTwiml : String := "<?xml version=\"1.0\" encoding=\"UTF-8\"?><Response></Response>"

theorem splitFirst_open (X : List Char) :
    splitFirst msgOpenTag (twimlHead.data ++ X) =
      some ("<?xml version=\"1.0\" encoding=\"UTF-8\"?>\n<Response>\n  ".data, X) := rfl

theorem splitFirst_close (E Z : List Char) (h : '<' ∉ E) :
    splitFirst msgCloseTag (E ++ (msgCloseTag ++ Z)) = some (E, Z) := by
  induction E with
  | nil => rfl
  | cons e E ih =>
    have he : e ≠ '<' := fun hh => h (by simp [hh])
    have hlt : ('<' == e) = false := beq_eq_false_iff_ne.mpr (Ne.symm he)
    have hpre : isPre msgCloseTag (e :: (E ++ (msgCloseTag ++ Z))) = false := by
      rw [show msgCloseTag = '<' :: "/Message>".data from rfl]
      simp [isPre, hlt]
    have hmem : '<' ∉ E := fun hm => h (List.mem_cons_of_mem _ hm)
    simp only [List.cons_append]
    rw [splitFirst, if_neg (by simp [hpre]), ih hmem]

theorem messageContent_twiml (m : String) (h : '<' ∉ m.data) :
    messageContent (twimlWith m) = some m.data := by
  have hdata : (twimlWith m).data =
      twimlHead.data ++ (m.data ++ (msgCloseTag ++ "\n</Response>".data)) := by
    simp [twimlWith, twimlTail, msgCloseTag]
  simp only [messageContent, hdata, splitFirst_open, splitFirst_close _ _ h]

/-! ## JavaScript-side primitive models

Field values in a decoded webhook body are strings; an absent field reads
as the empty string, and the source combines candidate fields with the
JavaScript or-operator, for which the empty string is falsy. -/

/-- Telephony payload: the decoded request body, a string-keyed record of
string values (first binding wins on lookup). -/
def Payload : Type := List (String × String)

/-- Read a field of the payload; absent fields read as the empty string
(the effect of `req.body.X || ...` chains ending in a literal). -/
def fieldOf (p : Payload) (k : String) : String :=
  match p with
  | [] => ""
  | (k2, v) :: rest => if k2 = k then v else fieldOf rest k

/-- JavaScript `a || b` on strings: the empty string is falsy. -/
def jsOr (a b : String) : String := if a = "" then b else a

/-- Decimal digit value of a character, if any. -/
def decDigit (c : Char) : Option Nat :=
  if 48 ≤ c.toNat ∧ c.toNat ≤ 57 then some (c.toNat - 48) else none

/-- Accumulate the leading digits of the list in the given base, stopping
at the first non-digit. -/
def parseDigitsAux (f : Char → Option Nat) (base : Nat) : List Char → Nat → Nat
  | [], acc => acc
  | c :: cs, acc =>
    match f c with
    | some d => parseDigitsAux f base cs (base * acc + d)
    | none => acc

/-- Whether the list starts with a digit recognized by `f`. -/
def hasDigit (f : Char → Option Nat) : List Char → Bool
  | [] => false
  | c :: _ => (f c).isSome

/-- The JavaScript `parseInt` with no radix argument: skip leading
whitespace, read an optional sign, auto-detect a hexadecimal `0x` prefix,
then read the longest digit run; `none` models `NaN`. -/
def parseIntJS (s : String) : Option Int :=
  let cs := s.data.dropWhile (fun c => (c == ' ') || (c == '\t') || (c == '\n') || (c == '\r'))
  let sgn : Int := match cs with
    | '-' :: _ => -1
    | _ => 1
  let cs2 : List Char := match cs with
    | '-' :: r => r
    | '+' :: r => r
    | _ => cs
  match cs2 with
  | '0' :: 'x' :: r =>
    if hasDigit hexVal r then some (sgn * (parseDigitsAux hexVal 16 r 0 : Nat)) else none
  | '0' :: 'X' :: r =>
    if hasDigit hexVal r then some (sgn * (parseDigitsAux hexVal 16 r 0 : Nat)) else none
  | _ =>
    if hasDigit decDigit cs2 then some (sgn * (parseDigitsAux decDigit 10 cs2 0 : Nat)) else none

/-- JavaScript `n > 0` where `n` may be `NaN` (`none`): any comparison
with `NaN` is false. -/
def jsGtZero : Option Int → Bool
  | some n => decide (0 < n)
  | none => false

/-- Take the first `n` characters of a string (the JavaScript
`s.substring(0, n)`). -/
def strTake (n : Nat) (s : String) : String := String.mk (s.data.take n)

/-! ## Nested-body reparse (src/server.js lines 271-282)

When the decoded body is a raw string, or an object whose `body` field is
itself a non-empty string, the handler reparses that string as
URL-encoded form data with `querystring.parse`. -/

/-- Decode one URL-encoded token: `+` becomes a space and `%hh` becomes
the character with that code (multi-byte UTF-8 percent sequences are not
recombined; none occur in the payloads considered here). -/
def decodeQS : List Char → List Char
  | [] => []
  | '+' :: r => ' ' :: decodeQS r
  | '%' :: a :: b :: r =>
    match hexVal a, hexVal b with
    | some x, some y => Char.ofNat (16 * x + y) :: decodeQS r
    | _, _ => '%' :: decodeQS (a :: b :: r)
  | c :: r => c :: decodeQS r

/-- Split one `key=value` segment (a segment without `=` maps the whole
segment to the empty string, as `querystring.parse` does). -/
def qsPair (cs : List Char) : String × String :=
  match splitFirst ['='] cs with
  | some (k, v) => (String.mk (decodeQS k), String.mk (decodeQS v))
  | none => (String.mk (decodeQS cs), "")

/-- The `querystring.parse` of the source, restricted to string values:
split on `&`, drop empty segments, split each segment at the first `=`. -/
def qsParse (s : String) : Payload :=
  ((splitOnChar '&' s.data).filter (fun g => g ≠ [])).map qsPair

/-- Decoded request body of the Telephony route: either a raw string the
framework failed to parse, or a decoded object. -/
inductive ReqBody
  | str (s : String)
  | obj (p : Payload)

/-- The manual reparse steps of the handler (lines 271-282): a raw string
body is parsed as form data; an object whose `body` field is a non-empty
string is replaced by the parse of that field. -/
def normalizeBody : ReqBody → Payload
  | .str s => qsParse s
  | .obj p => if fieldOf p "body" ≠ "" then qsParse (fieldOf p "body") else p

/-! ## Field extraction (src/server.js lines 286-297) -/

/-- The extracted message record of the Telephony handler. -/
structure TwilioFields where
  messageBody : String
  fromAddr : String
  toAddr : String
  messageSid : String
  accountSid : String
  numMedia : Option Int
  mediaUrl : String
  mediaContentType : String
deriving DecidableEq, Repr

/-- Field extraction of the Telephony handler: each field falls back
through the casing variants with the JavaScript or-operator. -/
def extractTwilioFields (p : Payload) : TwilioFields :=
  { messageBody := jsOr (fieldOf p "Body") (jsOr (fieldOf p "body") (jsOr (fieldOf p "BodyText") ""))
    fromAddr := jsOr (fieldOf p "From") (jsOr (fieldOf p "from") "")
    toAddr := jsOr (fieldOf p "To") (jsOr (fieldOf p "to") "")
    messageSid := jsOr (fieldOf p "MessageSid") (jsOr (fieldOf p "messageSid") "")
    accountSid := jsOr (fieldOf p "AccountSid") (jsOr (fieldOf p "accountSid") "")
    numMedia := parseIntJS (jsOr (fieldOf p "NumMedia") (jsOr (fieldOf p "numMedia") "0"))
    mediaUrl := jsOr (fieldOf p "MediaUrl0") (jsOr (fieldOf p "mediaUrl0") (jsOr (fieldOf p "mediaUrl") ""))
    mediaContentType := jsOr (fieldOf p "MediaContentType0")
      (jsOr (fieldOf p "mediaContentType0") (jsOr (fieldOf p "mediaType") "")) }

/-- The audio classification of line 313: a non-empty media URL whose
content type starts with `audio/`, or whose URL contains one of the
substrings `.wav`, `.ogg`, `.mp3`. -/
def classifyAudio (url ct : String) : Bool :=
  (url != "") && (strStarts "audio/" ct || strContains ".wav" url ||
    strContains ".ogg" url || strContains ".mp3" url)

/-- The media-branch condition of line 308: `numMedia > 0 || mediaUrl`. -/
def mediaBranch (f : TwilioFields) : Bool := jsGtZero f.numMedia || (f.mediaUrl != "")

/-! ## The media download (src/server.js lines 190-236)

The remote fetch is modelled by an outcome parameter: either the body
arrives, or the server answers a non-2xx status with an error body, or
the transport fails with an error message. -/

/-- Outcome of the remote fetch inside `downloadFile`. -/
inductive DownloadOutcome
  | ok
  | httpError (status : Nat) (respBody : String)
  | transportError (msg : String)

/-- Outcome of the transcription backend call inside `transcribeAudio`. -/
inductive TranscribeOutcome
  | ok (text : String)
  | backendError (msg : String)

/-- Base64 alphabet. -/
def base64Alphabet : List Char :=
  "ABCDEFGHIJKLMNOPQRSTUVWXYZabcdefghijklmnopqrstuvwxyz0123456789+/".data

/-- Base64 digit at index `n`. -/
def b64At (n : Nat) : Char := base64Alphabet.getD n 'A'

/-- Base64-encode a byte list, with `=` padding. -/
def base64Go : List UInt8 → List Char
  | [] => []
  | [b1] => [b64At (b1.toNat / 4), b64At (b1.toNat % 4 * 16), '=', '=']
  | [b1, b2] =>
    [b64At (b1.toNat / 4), b64At (b1.toNat % 4 * 16 + b2.toNat / 16),
     b64At (b2.toNat % 16 * 4), '=']
  | b1 :: b2 :: b3 :: rest =>
    b64At (b1.toNat / 4) :: b64At (b1.toNat % 4 * 16 + b2.toNat / 16) ::
    b64At (b2.toNat % 16 * 4 + b3.toNat / 64) :: b64At (b3.toNat % 64) :: base64Go rest

/-- Base64 of the UTF-8 bytes of a string (the `Buffer.from(s).toString`
call of line 199). -/
def base64Encode (s : String) : String := String.mk (base64Go s.toUTF8.toList)

/-- Observable result of one `downloadFile` call: the authorization
header it attached, the diagnostic it logged, whether it returned or
threw, and whether the transient file exists after the call. -/
structure DownloadResult where
  authHeader : Option String
  loggedDetail : Option String
  outcome : Except String Unit
  fileExists : Bool
deriving Repr

/-- The `downloadFile` helper: attach basic authentication exactly when
the URL contains `api.twilio.com` and both credentials are non-empty; on
a non-2xx response log the first 500 characters of the body and throw an
error embedding the status and the first 200 characters; on transport
failure rethrow; the transient file exists afterwards only on success
(the catch block deletes it when present, and on the failure paths the
body was never written). -/
def downloadFile (url accountSid authToken : String) (w : DownloadOutcome) : DownloadResult :=
  let isTwilioUrl := strContains "api.twilio.com" url
  let auth : Option String :=
    if isTwilioUrl && (accountSid != "") && (authToken != "") then
      some ("Basic " ++ base64Encode (accountSid ++ ":" ++ authToken))
    else none
  match w with
  | .ok => { authHeader := auth, loggedDetail := none, outcome := .ok (), fileExists := true }
  | .httpError status body =>
    { authHeader := auth
      loggedDetail := some (strTake 500 body)
      outcome := .error ("Failed to download file: HTTP " ++ toString status ++ " - " ++ strTake 200 body)
      fileExists := false }
  | .transportError msg =>
    { authHeader := auth, loggedDetail := none, outcome := .error msg, fileExists := false }

/-! ## The Telephony POST handler (src/server.js lines 261-435) -/

/-- Process-wide configuration read by the handler. -/
structure Env where
  twilioAccountSid : String
  twilioAuthToken : String

/-- Remote outcomes of one request. -/
structure World where
  download : DownloadOutcome
  transcription : TranscribeOutcome

/-- Composed HTTP response of one Telephony request, together with the
observable facts about the transient audio file. -/
structure HandlerResult where
  status : Nat
  contentType : String
  body : String
  tempFileCreated : Bool
  tempFileExists : Bool
  downloadAttempted : Bool
  transcribeAttempted : Bool
deriving DecidableEq, Repr

/-- The error prefix of the catch handler (line 424). -/
def errPre : String := "Error processing voice note: "

/-- The non-audio acknowledgment (lines 393-396). -/
def twilioAck : HandlerResult :=
  { status := 200, contentType := "text/xml", body := emptyTwiml
    tempFileCreated := false, tempFileExists := false
    downloadAttempted := false, transcribeAttempted := false }

/-- The error response of the catch handler (lines 397-434): the temp
file, when it exists, is deleted before the response is sent, and the
reply is always a 200 XML envelope embedding the escaped error message. -/
def twilioCatch (msg : String) (transcribed : Bool) : HandlerResult :=
  { status := 200, contentType := "text/xml"
    body := twimlWith (errPre ++ escX msg)
    tempFileCreated := true, tempFileExists := false
    downloadAttempted := true, transcribeAttempted := transcribed }

/-- The Telephony POST handler after body normalization: extract fields,
take the media branch when the count is positive or a URL is present,
classify audio, download, transcribe, compose the reply, and clean up the
transient file on every path. -/
def twilioCore (env : Env) (p : Payload) (w : World) : HandlerResult :=
  let f := extractTwilioFields p
  if mediaBranch f then
    if classifyAudio f.mediaUrl f.mediaContentType then
      let sid := jsOr env.twilioAccountSid f.accountSid
      let dl := downloadFile f.mediaUrl sid env.twilioAuthToken w.download
      match dl.outcome with
      | .error msg => twilioCatch msg false
      | .ok _ =>
        match w.transcription with
        | .ok text =>
          { status := 200, contentType := "text/xml", body := twimlWith (escX text)
            tempFileCreated := true, tempFileExists := false
            downloadAttempted := true, transcribeAttempted := true }
        | .backendError msg => twilioCatch msg true
    else twilioAck
  else twilioAck

/-- The full Telephony POST handler: normalize the body, then run the
core pipeline. -/
def twilioPost (env : Env) (b : ReqBody) (w : World) : HandlerResult :=
  twilioCore env (normalizeBody b) w

/-- The error, if any, that the pipeline of one request throws: the
download error when the fetch fails, else the transcription error when
the backend fails, and nothing when the audio branch is not taken. -/
def pipelineError (env : Env) (p : Payload) (w : World) : Option String :=
  let f := extractTwilioFields p
  if mediaBranch f then
    if classifyAudio f.mediaUrl f.mediaContentType then
      match (downloadFile f.mediaUrl (jsOr env.twilioAccountSid f.accountSid)
          env.twilioAuthToken w.download).outcome with
      | .error msg => some msg
      | .ok _ =>
        match w.transcription with
        | .ok _ => none
        | .backendError msg => some msg
    else none
  else none

/-! ## The CloudMessaging webhook (src/server.js lines 46-152)

The POST handler iterates entries, changes, messages and statuses, and
invokes one handler per message and one per status.  Each handler
invocation is modelled as one emitted `InboundEvent` carrying the fields
the handler reads from the record. -/

/-- One message record of a CloudMessaging value group. -/
structure WaMessage where
  id : String
  fromAddr : String
  msgType : String
  timestamp : String
deriving DecidableEq, Repr

/-- One status record of a CloudMessaging value group. -/
structure WaStatus where
  id : String
  statusValue : String
  recipient_id : String
  timestamp : String
deriving DecidableEq, Repr

/-- The `value` object of one change.  An absent `messages` or
`statuses` array is modelled as the empty list: the source skips an
absent array and iterates an empty one, emitting no events either way. -/
structure WaValue where
  messages : List WaMessage
  statuses : List WaStatus
deriving DecidableEq, Repr

/-- One entry of `entry[].changes`. -/
structure WaChange where
  field : String
  value : WaValue
deriving DecidableEq, Repr

/-- One element of the top-level `entry` array. -/
structure WaEntry where
  changes : List WaChange
deriving DecidableEq, Repr

/-- The decoded CloudMessaging POST body. -/
structure WaBody where
  object : String
  entry : List WaEntry
deriving DecidableEq, Repr

/-- One normalized inbound event: a handler invocation with the fields
the handler reads. -/
inductive InboundEvent
  | message (id fromAddr msgType timestamp : String)
  | statusUpdate (id statusValue recipient timestamp : String)
deriving DecidableEq, Repr

/-- The `handleIncomingMessage` invocation (lines 85-142). -/
def handleIncomingMessage (m : WaMessage) : InboundEvent :=
  .message m.id m.fromAddr m.msgType m.timestamp

/-- The `handleStatusUpdate` invocation (lines 145-152). -/
def handleStatusUpdate (s : WaStatus) : InboundEvent :=
  .statusUpdate s.id s.statusValue s.recipient_id s.timestamp

/-- Concatenation of the images of a list-valued function. -/
def concatMapL (f : α → List β) : List α → List β
  | [] => []
  | a :: as => f a ++ concatMapL f as

/-- Events emitted while processing one change: messages first, then
statuses, and nothing when the change field is not `messages`. -/
def changeEvents (c : WaChange) : List InboundEvent :=
  if c.field = "messages" then
    c.value.messages.map handleIncomingMessage ++ c.value.statuses.map handleStatusUpdate
  else []

/-- All events emitted for one body, in handler-invocation order. -/
def webhookEvents (b : WaBody) : List InboundEvent :=
  concatMapL (fun e => concatMapL changeEvents e.changes) b.entry

/-- The CloudMessaging POST handler: on the recognized discriminator,
process every entry and acknowledge once with 200 OK; otherwise answer
404. -/
def webhookPost (b : WaBody) : (Nat × String) × List InboundEvent :=
  if b.object = "whatsapp_business_account" then ((200, "OK"), webhookEvents b)
  else ((404, "Not Found"), [])

/-- Message records of one change that the handler visits. -/
def changeMessages (c : WaChange) : List WaMessage :=
  if c.field = "messages" then c.value.messages else []

/-- Status records of one change that the handler visits. -/
def changeStatuses (c : WaChange) : List WaStatus :=
  if c.field = "messages" then c.value.statuses else []

/-- All message records the handler visits, across entries and changes. -/
def messagesOf (b : WaBody) : List WaMessage :=
  concatMapL (fun e => concatMapL changeMessages e.changes) b.entry

/-- All status records the handler visits, across entries and changes. -/
def statusesOf (b : WaBody) : List WaStatus :=
  concatMapL (fun e => concatMapL changeStatuses e.changes) b.entry

/-- Projection of a message event to its id, from and timestamp. -/
def msgEvt : InboundEvent → Option (String × String × String)
  | .message i f _ t => some (i, f, t)
  | _ => none

/-- Projection of a status event to its id and timestamp. -/
def stEvt : InboundEvent → Option (String × String)
  | .statusUpdate i _ _ t => some (i, t)
  | _ => none

/-! ## Spec-side comparison definitions

The following definitions are written from the wording of the spec, not
from the source, to compare the claimed behavior with the code-derived
definitions above. -/

/-- Reverse-based suffix test on strings. -/
def strEnds (pat s : String) : Bool := isPre pat.data.reverse s.data.reverse

/-- Modelled from the spec: the host of a URL, for the clause "URL host
matching the telephony provider media domain" — the characters after the
scheme separator up to the first slash, question mark or hash. -/
def hostOf (url : String) : String :=
  let cs := url.data
  let post := match splitFirst "://".data cs with
    | some (_, post) => post
    | none => cs
  String.mk (post.takeWhile (fun c => !(c == '/' || c == '?' || c == '#')))

/-- Modelled from the spec: the path of a URL — the characters from the
first slash after the host up to the query or fragment. -/
def urlPath (url : String) : String :=
  let cs := url.data
  let post := match splitFirst "://".data cs with
    | some (_, post) => post
    | none => cs
  String.mk ((post.dropWhile (fun c => !(c == '/' || c == '?' || c == '#'))).takeWhile
    (fun c => !(c == '?' || c == '#')))

/-- Modelled from the spec: audio classification as the claim states it —
content type starts with `audio/`, or the URL path ends in one of `.wav`,
`.ogg`, `.mp3`. -/
def isAudioClaimed (url ct : String) : Bool :=
  strStarts "audio/" ct || strEnds ".wav" (urlPath url) || strEnds ".ogg" (urlPath url) ||
    strEnds ".mp3" (urlPath url)

/-- Audio classification as the amended claim states it: content type
starting with `audio/` or the URL containing one of the three audio
extensions as a substring, and a non-empty URL. -/
def isAudioAmended (url ct : String) : Bool :=
  (strStarts "audio/" ct || strContains ".wav" url || strContains ".ogg" url ||
    strContains ".mp3" url) && (url != "")

/-- The claim-side media count: the parsed count field with missing or
malformed counts treated as zero. -/
def countOrZero (p : Payload) : Int :=
  (parseIntJS (jsOr (fieldOf p "NumMedia") (jsOr (fieldOf p "numMedia") "0"))).getD 0

/-! ## Helper lemmas for the claim theorems -/

theorem errPre_no_lt : '<' ∉ errPre.data := by decide

theorem messageContent_err (m : String) :
    messageContent (twimlWith (errPre ++ escX m)) = some (errPre.data ++ escapeXml m.data) := by
  have hne : '<' ∉ (errPre ++ escX m).data := by
    rw [String.data_append]
    intro hm
    rcases List.mem_append.mp hm with hl | hr
    · exact errPre_no_lt hl
    · exact escapeXml_no_lt m.data hr
  rw [messageContent_twiml (errPre ++ escX m) hne, String.data_append]
  rfl

/-! ## Claim theorems -/

/-- C5: the source escapeXml replaces the five XML special characters in
the order ampersand, less-than, greater-than, quote, apostrophe, so the
ampersand pass never double-escapes entities introduced later; for every
transcript containing a less-than sign, an ampersand and a quote,
composing the TwiML envelope and reparsing its Message element as XML
(entity decoding of its text) reproduces the transcript exactly. -/
theorem c5_escape_roundtrip (t : String) (h1 : '<' ∈ t.data) (h2 : '&' ∈ t.data)
    (h3 : '"' ∈ t.data) :
    (messageContent (twimlWith (escX t))).map unescapeXml = some t.data := by
  have hne : '<' ∉ (escX t).data := escapeXml_no_lt t.data
  rw [messageContent_twiml (escX t) hne]
  show some (unescapeXml (escapeXml t.data)) = some t.data
  rw [unescape_escape]

/-- Witness for C5 at the transcript `a<b&c"d`. -/
theorem c5_escape_roundtrip_witness :
    ('<' ∈ "a<b&c\"d".data ∧ '&' ∈ "a<b&c\"d".data ∧ '"' ∈ "a<b&c\"d".data) ∧
    (messageContent (twimlWith (escX "a<b&c\"d"))).map unescapeXml = some "a<b&c\"d".data :=
  ⟨⟨by decide, by decide, by decide⟩,
    c5_escape_roundtrip "a<b&c\"d" (by decide) (by decide) (by decide)⟩

/-- C1: whenever the Telephony pipeline throws (download failure of any
HTTP status, transport failure, or transcription-backend failure), the
composed reply has status 200 and XML content type, and its body is the
TwiML envelope whose Message element contains the error message prefixed
with "Error processing voice note: "; the handler is total, so the fault
never reaches the HTTP layer. -/
theorem c1_error_envelope (env : Env) (b : ReqBody) (w : World) (m : String)
    (h : pipelineError env (normalizeBody b) w = some m) :
    (twilioPost env b w).status = 200 ∧
    (twilioPost env b w).contentType = "text/xml" ∧
    (twilioPost env b w).body = twimlWith (errPre ++ escX m) ∧
    messageContent (twilioPost env b w).body = some (errPre.data ++ escapeXml m.data) := by
  unfold twilioPost
  set p := normalizeBody b with hp
  by_cases hb : mediaBranch (extractTwilioFields p)
  · by_cases hc : classifyAudio (extractTwilioFields p).mediaUrl
        (extractTwilioFields p).mediaContentType
    · cases hdl : (downloadFile (extractTwilioFields p).mediaUrl
          (jsOr env.twilioAccountSid (extractTwilioFields p).accountSid)
          env.twilioAuthToken w.download).outcome with
      | error msg =>
        have hm : msg = m := by
          simp [pipelineError, hb, hc, hdl] at h
          exact h
        subst hm
        refine ⟨?_, ?_, ?_, ?_⟩ <;>
          simp [twilioCore, hb, hc, hdl, twilioCatch, messageContent_err]
      | ok u =>
        cases htr : w.transcription with
        | ok text =>
          exfalso
          simp [pipelineError, hb, hc, hdl, htr] at h
        | backendError msg =>
          have hm : msg = m := by
            simp [pipelineError, hb, hc, hdl, htr] at h
            exact h
          subst hm
          refine ⟨?_, ?_, ?_, ?_⟩ <;>
            simp [twilioCore, hb, hc, hdl, htr, twilioCatch, messageContent_err]
    · exfalso; simp [pipelineError, hb, hc] at h
  · exfalso; simp [pipelineError, hb] at h

/-- Witness for C1: a download failing with HTTP 404. -/
theorem c1_error_envelope_witness :
    pipelineError ⟨"", ""⟩ (normalizeBody (.obj [("MediaUrl0", "http://api.twilio.com/a.ogg")]))
        ⟨.httpError 404 "nf", .ok "x"⟩ = some "Failed to download file: HTTP 404 - nf" ∧
    ((twilioPost ⟨"", ""⟩ (.obj [("MediaUrl0", "http://api.twilio.com/a.ogg")])
        ⟨.httpError 404 "nf", .ok "x"⟩).status = 200 ∧
      (twilioPost ⟨"", ""⟩ (.obj [("MediaUrl0", "http://api.twilio.com/a.ogg")])
        ⟨.httpError 404 "nf", .ok "x"⟩).contentType = "text/xml" ∧
      (twilioPost ⟨"", ""⟩ (.obj [("MediaUrl0", "http://api.twilio.com/a.ogg")])
        ⟨.httpError 404 "nf", .ok "x"⟩).body =
          twimlWith (errPre ++ escX "Failed to download file: HTTP 404 - nf") ∧
      messageContent (twilioPost ⟨"", ""⟩ (.obj [("MediaUrl0", "http://api.twilio.com/a.ogg")])
        ⟨.httpError 404 "nf", .ok "x"⟩).body =
          some (errPre.data ++ escapeXml "Failed to download file: HTTP 404 - nf".data)) :=
  ⟨rfl, c1_error_envelope ⟨"", ""⟩ (.obj [("MediaUrl0", "http://api.twilio.com/a.ogg")])
    ⟨.httpError 404 "nf", .ok "x"⟩ "Failed to download file: HTTP 404 - nf" rfl⟩

theorem twilio_tempFile_clean (env : Env) (p : Payload) (w : World) :
    (twilioCore env p w).tempFileExists = false := by
  by_cases hb : mediaBranch (extractTwilioFields p)
  · by_cases hc : classifyAudio (extractTwilioFields p).mediaUrl
        (extractTwilioFields p).mediaContentType
    · cases hdl : (downloadFile (extractTwilioFields p).mediaUrl
          (jsOr env.twilioAccountSid (extractTwilioFields p).accountSid)
          env.twilioAuthToken w.download).outcome with
      | error msg => simp [twilioCore, hb, hc, hdl, twilioCatch]
      | ok u =>
        cases htr : w.transcription with
        | ok text => simp [twilioCore, hb, hc, hdl, htr]
        | backendError msg => simp [twilioCore, hb, hc, hdl, htr, twilioCatch]
    · simp [twilioCore, hb, hc, twilioAck]
  · simp [twilioCore, hb, twilioAck]

/-- C2: whenever a Telephony request created the transient audio file,
the file no longer exists once the HTTP response is sent, on every exit
path (success, transcription failure, download failure). -/
theorem c2_cleanup (env : Env) (b : ReqBody) (w : World)
    (h : (twilioPost env b w).tempFileCreated = true) :
    (twilioPost env b w).tempFileExists = false :=
  twilio_tempFile_clean env (normalizeBody b) w

/-- Witness for C2: a successful download and transcription. -/
theorem c2_cleanup_witness :
    (twilioPost ⟨"", ""⟩ (.obj [("MediaUrl0", "http://x/a.ogg")]) ⟨.ok, .ok "hi"⟩).tempFileCreated
      = true ∧
    (twilioPost ⟨"", ""⟩ (.obj [("MediaUrl0", "http://x/a.ogg")]) ⟨.ok, .ok "hi"⟩).tempFileExists
      = false :=
  ⟨rfl, c2_cleanup ⟨"", ""⟩ (.obj [("MediaUrl0", "http://x/a.ogg")]) ⟨.ok, .ok "hi"⟩ rfl⟩

/-- C3 counterexample: the payloads with `Body` and with `body` do not
normalize to the same extracted record, because a non-empty string in the
`body` field triggers the nested-body reparse of lines 276-279. -/
theorem c3_counterexample :
    extractTwilioFields (normalizeBody (.obj [("Body", "hi")])) ≠
      extractTwilioFields (normalizeBody (.obj [("body", "hi")])) := by
  decide

/-- C3 amended: the two payloads produce identical HTTP responses, but
not identical records: `{Body:"hi"}` extracts message body `hi`, while
`{body:"hi"}` is treated as a double-encoded body, reparsed as the query
string `hi` (yielding the record `{hi:""}`), and extracts an empty
message body.  Case-insensitive fallback applies only to payloads that do
not trigger the nested-body reparse. -/
theorem c3_amended :
    (extractTwilioFields (normalizeBody (.obj [("Body", "hi")]))).messageBody = "hi" ∧
    (extractTwilioFields (normalizeBody (.obj [("body", "hi")]))).messageBody = "" ∧
    normalizeBody (.obj [("body", "hi")]) = [("hi", "")] ∧
    ∀ (env : Env) (w : World),
      twilioPost env (.obj [("Body", "hi")]) w = twilioPost env (.obj [("body", "hi")]) w :=
  ⟨rfl, rfl, rfl, fun _ _ => rfl⟩

/-- C4 counterexample: a URL whose path ends in `.pdf` but contains the
substring `.mp3`, with empty content type, classifies as audio in the
code (substring containment), while the claimed ends-with classification
rejects it. -/
theorem c4_counterexample :
    classifyAudio "http://h/x.mp3.pdf" "" = true ∧
    isAudioClaimed "http://h/x.mp3.pdf" "" = false := by
  constructor <;> rfl

/-- C4 amended: classification as audio is true if and only if the URL is
non-empty and either the content type starts with `audio/` or the URL
contains one of the substrings `.wav`, `.ogg`, `.mp3` anywhere (not only
as a path suffix); the three examples of the claim all hold. -/
theorem c4_amended :
    (∀ url ct, classifyAudio url ct = isAudioAmended url ct) ∧
    classifyAudio "http://h/a.ogg" "" = true ∧
    classifyAudio "http://h/a.pdf" "audio/wav" = true ∧
    classifyAudio "http://h/a.pdf" "" = false := by
  refine ⟨fun url ct => ?_, rfl, rfl, rfl⟩
  unfold classifyAudio isAudioAmended
  exact Bool.and_comm _ _

/-- A 201-character response body, used to separate a 200-character
truncation from a 500-character truncation. -/
def longBody : String := String.mk (List.replicate 201 'a')

set_option maxRecDepth 100000 in
set_option maxHeartbeats 1600000 in
/-- C7 counterexample: on a non-2xx response with a 201-character body,
the propagated error does not carry the first min(length, 500) = 201
characters of the body: its message embeds only the first 200. -/
theorem c7_counterexample :
    (downloadFile "http://api.twilio.com/a.ogg" "" "" (.httpError 404 longBody)).outcome =
      .error ("Failed to download file: HTTP 404 - " ++ strTake 200 longBody) ∧
    strContains (strTake 500 longBody)
      ("Failed to download file: HTTP 404 - " ++ strTake 200 longBody) = false := by
  constructor
  · rfl
  · decide

/-- C7 amended: on every non-2xx response, the fetch logs up to the first
500 characters of the response body as diagnostic detail before failing,
and then fails with an error whose message embeds the HTTP status and up
to the first 200 characters of the body; the transient file does not
exist after the failure. -/
theorem c7_amended (url sid tok : String) (status : Nat) (body : String) :
    (downloadFile url sid tok (.httpError status body)).loggedDetail =
      some (strTake 500 body) ∧
    (downloadFile url sid tok (.httpError status body)).outcome =
      .error ("Failed to download file: HTTP " ++ toString status ++ " - " ++ strTake 200 body) ∧
    (downloadFile url sid tok (.httpError status body)).fileExists = false :=
  ⟨rfl, rfl, rfl⟩

/-- C8 counterexample: a URL on a foreign host that merely contains
`api.twilio.com` in its path gets the basic-authentication header even
though its host does not match the provider media domain. -/
theorem c8_counterexample :
    (downloadFile "https://evil.example/api.twilio.com/a.ogg" "AC" "tk" .ok).authHeader.isSome
      = true ∧
    hostOf "https://evil.example/api.twilio.com/a.ogg" ≠ "api.twilio.com" ∧
    ("AC" : String) ≠ "" ∧ ("tk" : String) ≠ "" := by
  refine ⟨rfl, ?_, ?_, ?_⟩ <;> decide

/-- C8 amended: the basic-authentication header (base64 of `id:secret`)
is attached exactly when the URL contains the substring `api.twilio.com`
and both credentials are non-empty; without credentials the fetch
proceeds unauthenticated rather than failing fast. -/
theorem c8_amended (url sid tok : String) (w : DownloadOutcome) :
    (downloadFile url sid tok w).authHeader =
      (if strContains "api.twilio.com" url && (sid != "") && (tok != "") then
        some ("Basic " ++ base64Encode (sid ++ ":" ++ tok))
      else none) ∧
    (downloadFile url "" tok w).authHeader = none ∧
    (downloadFile url sid "" w).authHeader = none ∧
    (downloadFile url sid tok .ok).outcome = .ok () := by
  refine ⟨?_, ?_, ?_, rfl⟩ <;> cases w <;> simp [downloadFile]

/-- The fields of a message record preserved in its event. -/
def msgKey (m : WaMessage) : String × String × String := (m.id, m.fromAddr, m.timestamp)

/-- The fields of a status record preserved in its event. -/
def stKey (s : WaStatus) : String × String := (s.id, s.timestamp)

theorem filterMap_msgEvt_msgs (l : List WaMessage) :
    l.filterMap (msgEvt ∘ handleIncomingMessage) = l.map msgKey := by
  induction l with
  | nil => rfl
  | cons m l ih => simp_all [Function.comp, handleIncomingMessage, msgEvt, msgKey]

theorem filterMap_msgEvt_sts (l : List WaStatus) :
    l.filterMap (msgEvt ∘ handleStatusUpdate) = [] := by
  induction l with
  | nil => rfl
  | cons s l ih => simp_all [Function.comp, handleStatusUpdate, msgEvt]

theorem filterMap_stEvt_msgs (l : List WaMessage) :
    l.filterMap (stEvt ∘ handleIncomingMessage) = [] := by
  induction l with
  | nil => rfl
  | cons m l ih => simp_all [Function.comp, handleIncomingMessage, stEvt]

theorem filterMap_stEvt_sts (l : List WaStatus) :
    l.filterMap (stEvt ∘ handleStatusUpdate) = l.map stKey := by
  induction l with
  | nil => rfl
  | cons s l ih => simp_all [Function.comp, handleStatusUpdate, stEvt, stKey]

theorem changeEvents_spec (c : WaChange) :
    (changeEvents c).length = (changeMessages c).length + (changeStatuses c).length ∧
    (changeEvents c).filterMap msgEvt = (changeMessages c).map msgKey ∧
    (changeEvents c).filterMap stEvt = (changeStatuses c).map stKey := by
  by_cases hf : c.field = "messages" <;>
    simp [changeEvents, changeMessages, changeStatuses, hf, List.filterMap_append,
      filterMap_msgEvt_msgs, filterMap_msgEvt_sts, filterMap_stEvt_msgs, filterMap_stEvt_sts]

theorem changesEvents_spec (cs : List WaChange) :
    (concatMapL changeEvents cs).length =
      (concatMapL changeMessages cs).length + (concatMapL changeStatuses cs).length ∧
    (concatMapL changeEvents cs).filterMap msgEvt = (concatMapL changeMessages cs).map msgKey ∧
    (concatMapL changeEvents cs).filterMap stEvt = (concatMapL changeStatuses cs).map stKey := by
  induction cs with
  | nil => simp [concatMapL]
  | cons c cs ih =>
    obtain ⟨hl, hm, hs⟩ := ih
    obtain ⟨cl, cm, cst⟩ := changeEvents_spec c
    refine ⟨?_, ?_, ?_⟩ <;>
      simp [concatMapL, List.filterMap_append, hl, hm, hs, cl, cm, cst]
    omega

theorem entriesEvents_spec (es : List WaEntry) :
    (concatMapL (fun e => concatMapL changeEvents e.changes) es).length =
      (concatMapL (fun e => concatMapL changeMessages e.changes) es).length +
      (concatMapL (fun e => concatMapL changeStatuses e.changes) es).length ∧
    (concatMapL (fun e => concatMapL changeEvents e.changes) es).filterMap msgEvt =
      (concatMapL (fun e => concatMapL changeMessages e.changes) es).map msgKey ∧
    (concatMapL (fun e => concatMapL changeEvents e.changes) es).filterMap stEvt =
      (concatMapL (fun e => concatMapL changeStatuses e.changes) es).map stKey := by
  induction es with
  | nil => simp [concatMapL]
  | cons e es ih =>
    obtain ⟨hl, hm, hs⟩ := ih
    obtain ⟨cl, cm, cst⟩ := changesEvents_spec e.changes
    refine ⟨?_, ?_, ?_⟩ <;>
      simp [concatMapL, List.filterMap_append, hl, hm, hs, cl, cm, cst]
    omega

/-- C6: for every CloudMessaging payload with the recognized top-level
discriminator, the handler emits one event per message record and one per
status record across all entry and change groups with field `messages`
(N + M events in total), each message event preserving the record's id,
from and timestamp and each status event its id and timestamp, and the
request is acknowledged once with 200 OK. -/
theorem c6_fanout (b : WaBody) (h : b.object = "whatsapp_business_account") :
    (webhookPost b).fst = (200, "OK") ∧
    (webhookPost b).snd.length = (messagesOf b).length + (statusesOf b).length ∧
    (webhookPost b).snd.filterMap msgEvt = (messagesOf b).map msgKey ∧
    (webhookPost b).snd.filterMap stEvt = (statusesOf b).map stKey := by
  have he := entriesEvents_spec b.entry
  unfold webhookPost
  rw [if_pos h]
  exact ⟨rfl, he.1, he.2.1, he.2.2⟩

/-- A sample CloudMessaging body with one message and one status. -/
def waSample : WaBody :=
  ⟨"whatsapp_business_account",
    [⟨[⟨"messages", ⟨[⟨"m1", "u1", "text", "111"⟩], [⟨"s1", "delivered", "u2", "222"⟩]⟩⟩]⟩]⟩

/-- Witness for C6 at a body with one message and one status. -/
theorem c6_fanout_witness :
    waSample.object = "whatsapp_business_account" ∧
    ((webhookPost waSample).fst = (200, "OK") ∧
      (webhookPost waSample).snd.length = (messagesOf waSample).length + (statusesOf waSample).length ∧
      (webhookPost waSample).snd.filterMap msgEvt = (messagesOf waSample).map msgKey ∧
      (webhookPost waSample).snd.filterMap stEvt = (statusesOf waSample).map stKey) :=
  ⟨rfl, c6_fanout waSample rfl⟩

/-- C9: the Telephony media branch is taken exactly when the parsed media
count (missing or malformed counts reading as zero) is positive, or the
extracted first media URL field is non-empty. -/
theorem c9_media_branch (p : Payload) :
    mediaBranch (extractTwilioFields p) =
      (decide (0 < countOrZero p) || ((extractTwilioFields p).mediaUrl != "")) := by
  have hgt : ∀ o : Option Int, jsGtZero o = decide (0 < o.getD 0) := by
    intro o
    cases o with
    | none => simp [jsGtZero]
    | some n => simp [jsGtZero]
  simp [mediaBranch, countOrZero, extractTwilioFields, hgt]

/-- C10: a Telephony payload with a positive media count but no media URL
field performs no download and no transcription and is answered with the
same 200 empty TwiML acknowledgment as a plain text message. -/
theorem c10_count_without_url (env : Env) (p : Payload) (w : World)
    (hcount : 0 < countOrZero p)
    (h1 : fieldOf p "MediaUrl0" = "") (h2 : fieldOf p "mediaUrl0" = "")
    (h3 : fieldOf p "mediaUrl" = "") :
    twilioCore env p w = twilioAck ∧ (twilioCore env p w).status = 200 ∧
    (twilioCore env p w).contentType = "text/xml" ∧
    (twilioCore env p w).body = emptyTwiml ∧
    (twilioCore env p w).downloadAttempted = false ∧
    (twilioCore env p w).transcribeAttempted = false := by
  have hurl : (extractTwilioFields p).mediaUrl = "" := by
    simp [extractTwilioFields, h1, h2, h3, jsOr]
  have hcls : classifyAudio (extractTwilioFields p).mediaUrl
      (extractTwilioFields p).mediaContentType = false := by
    rw [hurl]; rfl
  have hres : twilioCore env p w = twilioAck := by
    by_cases hb : mediaBranch (extractTwilioFields p) <;> simp [twilioCore, hb, hcls]
  refine ⟨hres, ?_, ?_, ?_, ?_, ?_⟩ <;> rw [hres] <;> rfl

/-- Witness for C10 at the payload with count 2 and no URL fields. -/
theorem c10_count_without_url_witness :
    (0 < countOrZero [("NumMedia", "2")] ∧
      fieldOf [("NumMedia", "2")] "MediaUrl0" = "" ∧
      fieldOf [("NumMedia", "2")] "mediaUrl0" = "" ∧
      fieldOf [("NumMedia", "2")] "mediaUrl" = "") ∧
    (twilioCore ⟨"", ""⟩ [("NumMedia", "2")] ⟨.ok, .ok "hi"⟩ = twilioAck ∧
      (twilioCore ⟨"", ""⟩ [("NumMedia", "2")] ⟨.ok, .ok "hi"⟩).status = 200 ∧
      (twilioCore ⟨"", ""⟩ [("NumMedia", "2")] ⟨.ok, .ok "hi"⟩).contentType = "text/xml" ∧
      (twilioCore ⟨"", ""⟩ [("NumMedia", "2")] ⟨.ok, .ok "hi"⟩).body = emptyTwiml ∧
      (twilioCore ⟨"", ""⟩ [("NumMedia", "2")] ⟨.ok, .ok "hi"⟩).downloadAttempted = false ∧
      (twilioCore ⟨"", ""⟩ [("NumMedia", "2")] ⟨.ok, .ok "hi"⟩).transcribeAttempted = false) :=
  ⟨⟨by decide, rfl, rfl, rfl⟩,
    c10_count_without_url ⟨"", ""⟩ [("NumMedia", "2")] ⟨.ok, .ok "hi"⟩ (by decide) rfl rfl rfl⟩
